import Mathlib

/-!
Verification of the nix-download repository against its specification.

The development shallowly embeds the Go sources:
 * `narextract/narextract.go` — the NAR stream reader and extractor, modelled
   byte-for-byte over `List Nat` byte streams (Go `int64` reads become `Int`
   with explicit two's-complement interpretation; Go runtime panics are made
   explicit as dedicated error values);
 * `main.go` — the NarInfo parser / signature verifier, the closure resolver
   (BFS with fuel), the Nix base-32 encoder, and the per-path
   fetch-and-manifest pipeline (network, decompression and SHA-256 are
   abstract parameters; the filesystem is a set of paths).
-/

/-- Raw bytes of a stream, one `Nat` (0..255) per byte. -/
abbrev Bytes := List Nat

/-- Bytes of an ASCII literal, for transliterating Go string literals. -/
def blit (s : String) : Bytes := s.data.map Char.toNat

/-- Errors of the NAR extractor.  Constructors mirror the `fmt.Errorf` sites in
`narextract.go`; `panicMakeSlice` and `panicSliceBounds` stand for Go runtime
panics (`make([]byte, n)` with negative `n`, out-of-range reslicing), which
abort the program rather than return an error.  `ioEOF` models the bare
`io.EOF` sentinel tested by `extractDirectory`; no reader operation of this
codebase ever returns it un-wrapped.  `outOfFuel` is an artifact of the fuelled
embedding, produced by no code path of the source. -/
inductive NErr where
  | ioEOF
  | failedReadInt64
  | stringTooLong (l : Int)
  | readFullErr
  | panicMakeSlice
  | panicSliceBounds
  | badMagic (m : Bytes)
  | expectErr (want got : Bytes)
  | unknownType (t : Bytes)
  | expectedContents (got : Bytes)
  | fileLengthErr
  | writeFileErr
  | filePaddingErr
  | invalidPathComponent (n : Bytes)
  | unsortedEntries (p n : Bytes)
  | outOfFuel
deriving DecidableEq, Repr

/-- Reader state of `NarExtractor`: the remaining input bytes plus the
one-slot pushback (`nextString` / `haveNext`). -/
abbrev Reader := Bytes × Option Bytes

/-- Little-endian value of eight bytes. -/
def leDecode8 (b0 b1 b2 b3 b4 b5 b6 b7 : Nat) : Nat :=
  b0 + 256 * (b1 + 256 * (b2 + 256 * (b3 + 256 * (b4 + 256 * (b5 + 256 * (b6 + 256 * b7))))))

/-- Model of `NarExtractor.readInt64`: read 8 bytes, little-endian, as a signed
64-bit integer (`binary.Read(ne.reader, binary.LittleEndian, &value)`); a short
stream yields the wrapped error. -/
def readInt64 (b : Bytes) : Except NErr (Int × Bytes) :=
  match b with
  | b0 :: b1 :: b2 :: b3 :: b4 :: b5 :: b6 :: b7 :: rest =>
    let v := leDecode8 b0 b1 b2 b3 b4 b5 b6 b7
    let i : Int := if v < 2 ^ 63 then (v : Int) else (v : Int) - 2 ^ 64
    .ok (i, rest)
  | _ => .error .failedReadInt64

/-- The `maxStringLength` constant of `narextract.go` (16 KiB). -/
def maxStringLength : Int := 16 * 1024

/-- Model of `NarExtractor.readString`.  Mirrors the Go source line by line:
serve the pushback if present; read the length; bound it by
`maxStringLength`; compute `padding := (8 - (length % 8)) % 8` with Go's
truncated `%` (`Int.tmod`); `make([]byte, length+padding)` (panics when the
size is negative); `io.ReadFull`; strip the padding by reslicing
(`data[:len(data)-padding]`, which panics when the index is negative). -/
def readString (r : Reader) : Except NErr (Bytes × Reader) :=
  match r.2 with
  | some s => .ok (s, (r.1, none))
  | none =>
    match readInt64 r.1 with
    | .error e => .error e
    | .ok (length, rest) =>
      if length > maxStringLength then .error (.stringTooLong length)
      else
        let padding : Int := Int.tmod (8 - Int.tmod length 8) 8
        let total : Int := length + padding
        if total < 0 then .error .panicMakeSlice
        else if (rest.length : Int) < total then .error .readFullErr
        else if total < padding then .error .panicSliceBounds
        else .ok (rest.take (total - padding).toNat, (rest.drop total.toNat, none))

/-- Model of `NarExtractor.unread`. -/
def unread (s : Bytes) (r : Reader) : Reader := (r.1, some s)

/-- Model of `NarExtractor.expectString`. -/
def expectString (expected : Bytes) (r : Reader) : Except NErr Reader :=
  match readString r with
  | .error e => .error e
  | .ok (s, r') => if s = expected then .ok r' else .error (.expectErr expected s)

/-- Direct read of `n` bytes from the underlying stream (`io.ReadFull` on
`ne.reader`, bypassing the pushback slot exactly as the Go code does). -/
def readRaw (n : Nat) (b : Bytes) : Option (Bytes × Bytes) :=
  if n ≤ b.length then some (b.take n, b.drop n) else none

/-- Model of `isValidPathComponent` from `narextract.go`. -/
def isValidPathComponent (name : Bytes) : Bool :=
  decide (name ≠ []) && decide (name ≠ blit ".") && decide (name ≠ blit "..")
    && !(name.contains 47)

/-- Model of `bytes.Compare`: the sign of the lexicographic comparison. -/
def bytesCompare : Bytes → Bytes → Int
  | [], [] => 0
  | [], _ :: _ => -1
  | _ :: _, [] => 1
  | a :: as, b :: bs => if a < b then -1 else if b < a then 1 else bytesCompare as bs

mutual
/-- Filesystem object produced by extraction, mirroring the three node kinds
of the NAR grammar. -/
inductive NarNode where
  | regular (executable : Bool) (contents : Bytes)
  | symlink (target : Bytes)
  | directory (entries : Entries)

/-- Entries of a directory node, in extraction order. -/
inductive Entries where
  | nil
  | cons (name : Bytes) (node : NarNode) (rest : Entries)
end

/-- Tail of `extractRegular` after the optional `executable` marker: require
`contents`, read the declared length directly from the stream, copy exactly
that many bytes (`io.CopyN`, which reports `io.EOF` — an error — on a negative
or short count), then consume the padding. -/
def extractRegularBody (exec : Bool) (nextField : Bytes) (r : Reader) :
    Except NErr (NarNode × Reader) :=
  if nextField ≠ blit "contents" then .error (.expectedContents nextField)
  else
    match readInt64 r.1 with
    | .error _ => .error .fileLengthErr
    | .ok (length, buf1) =>
      if length < 0 then .error .writeFileErr
      else
        match readRaw length.toNat buf1 with
        | none => .error .writeFileErr
        | some (contents, buf2) =>
          let padding : Int := Int.tmod (8 - Int.tmod length 8) 8
          if padding > 0 then
            match readRaw padding.toNat buf2 with
            | none => .error .filePaddingErr
            | some (_, buf3) => .ok (.regular exec contents, (buf3, r.2))
          else .ok (.regular exec contents, (buf2, r.2))

/-- Model of `NarExtractor.extractRegular`. -/
def extractRegular (r : Reader) : Except NErr (NarNode × Reader) :=
  match readString r with
  | .error e => .error e
  | .ok (f0, r1) =>
    if f0 = blit "executable" then
      match expectString (blit "") r1 with
      | .error e => .error e
      | .ok r2 =>
        match readString r2 with
        | .error e => .error e
        | .ok (f1, r3) => extractRegularBody true f1 r3
    else extractRegularBody false f0 r1

/-- Model of `NarExtractor.extractSymlink`. -/
def extractSymlink (r : Reader) : Except NErr (NarNode × Reader) :=
  match expectString (blit "target") r with
  | .error e => .error e
  | .ok r1 =>
    match readString r1 with
    | .error e => .error e
    | .ok (target, r2) => .ok (.symlink target, r2)

mutual
/-- Model of `NarExtractor.extractNarObj`: `(`, `type`, the node kind, the
kind-specific body, then the closing `)`.  The `Nat` argument is recursion
fuel (the Go code recurses on the unbounded input stream). -/
def extractNarObj : Nat → Reader → Except NErr (NarNode × Reader)
  | 0, _ => .error .outOfFuel
  | fuel + 1, r =>
    match expectString (blit "(") r with
    | .error e => .error e
    | .ok r1 =>
      match expectString (blit "type") r1 with
      | .error e => .error e
      | .ok r2 =>
        match readString r2 with
        | .error e => .error e
        | .ok (objType, r3) =>
          match
            (if objType = blit "regular" then extractRegular r3
             else if objType = blit "symlink" then extractSymlink r3
             else if objType = blit "directory" then
               match extractDirectory fuel [] r3 with
               | .error e => .error e
               | .ok (es, r4) => .ok (.directory es, r4)
             else .error (.unknownType objType)) with
          | .error e => .error e
          | .ok (node, r4) =>
            match expectString (blit ")") r4 with
            | .error e => .error e
            | .ok r5 => .ok (node, r5)

/-- Model of the entry loop of `NarExtractor.extractDirectory`: peek one
token; a non-`entry` token is pushed back and ends the directory; otherwise
require `(`, `name`, validate the name, enforce strictly increasing
byte-lexicographic order against `prev`, require `node`, recurse, require `)`
and continue with `prev := name`. -/
def extractDirectory : Nat → Bytes → Reader → Except NErr (Entries × Reader)
  | 0, _, _ => .error .outOfFuel
  | fuel + 1, prev, r =>
    match readString r with
    | .error e => if e = .ioEOF then .ok (.nil, r) else .error e
    | .ok (entry, r1) =>
      if entry ≠ blit "entry" then .ok (.nil, unread entry r1)
      else
        match expectString (blit "(") r1 with
        | .error e => .error e
        | .ok r2 =>
          match expectString (blit "name") r2 with
          | .error e => .error e
          | .ok r3 =>
            match readString r3 with
            | .error e => .error e
            | .ok (name, r4) =>
              if isValidPathComponent name = false then
                .error (.invalidPathComponent name)
              else if prev ≠ [] ∧ bytesCompare prev name ≥ 0 then
                .error (.unsortedEntries prev name)
              else
                match expectString (blit "node") r4 with
                | .error e => .error e
                | .ok r5 =>
                  match extractNarObj fuel r5 with
                  | .error e => .error e
                  | .ok (node, r6) =>
                    match expectString (blit ")") r6 with
                    | .error e => .error e
                    | .ok r7 =>
                      match extractDirectory fuel name r7 with
                      | .error e => .error e
                      | .ok (rest, r8) => .ok (.cons name node rest, r8)
end

/-- Model of `NarExtractor.Extract`: check the magic, then extract the top
node. -/
def Extract (fuel : Nat) (r : Reader) : Except NErr (NarNode × Reader) :=
  match readString r with
  | .error e => .error e
  | .ok (magic, r1) =>
    if magic ≠ blit "nix-archive-1" then .error (.badMagic magic)
    else extractNarObj fuel r1

mutual
/-- Structural invariant of extracted trees: every directory's entry names are
valid path components in strictly increasing byte-lexicographic order. -/
def nodeOk : NarNode → Bool
  | .regular _ _ => true
  | .symlink _ => true
  | .directory es => chainOk [] es

/-- `chainOk prev es` — the names of `es` are valid, strictly increasing, and
(when `prev ≠ []`) strictly greater than `prev`; all child nodes satisfy
`nodeOk`. -/
def chainOk : Bytes → Entries → Bool
  | _, .nil => true
  | prev, .cons name node rest =>
    isValidPathComponent name
      && (decide (prev = []) || decide (bytesCompare prev name < 0))
      && nodeOk node && chainOk name rest
end

/-- Length-prefixed, padded encoding of one NAR string token (for concrete
test streams; `n` below 2^63). -/
def encLen (n : Nat) : Bytes :=
  [n % 256, n / 256 % 256, n / 256 ^ 2 % 256, n / 256 ^ 3 % 256,
   n / 256 ^ 4 % 256, n / 256 ^ 5 % 256, n / 256 ^ 6 % 256, n / 256 ^ 7 % 256]

/-- Encode a NAR string token: 8-byte little-endian length, the bytes, then
zero padding to the next multiple of 8. -/
def encStr (s : Bytes) : Bytes :=
  encLen s.length ++ s ++ List.replicate ((8 - s.length % 8) % 8) 0

example : readString (encStr (blit "entry") ++ [9], none) =
    .ok (blit "entry", ([9], none)) := rfl

example : readString (List.replicate 8 255, none) = .error .panicSliceBounds := rfl

example :
    Extract 5 (encStr (blit "nix-archive-1") ++ encStr (blit "(") ++
      encStr (blit "type") ++ encStr (blit "symlink") ++ encStr (blit "target") ++
      encStr (blit "/x") ++ encStr (blit ")"), none) =
    .ok (.symlink (blit "/x"), ([], none)) := rfl

/-! ## Nix base-32 codec (`nixBase32Encode` in `main.go`) -/

/-- The `nix32Chars` alphabet constant of `main.go`. -/
def nix32Chars : List Char := "0123456789abcdfghijklmnpqrsvwxyz".data

/-- Character written at output position `len-1-n` by the encoder loop of
`nixBase32Encode`: bit offset `b = n*5`, `i = b/8`, `j = b%8`,
`c = hash[i] >> j | hash[i+1] << (8-j)` with out-of-range bytes as 0 and byte
(`% 256`) truncation of the left shift, indexing the alphabet by `c & 0x1f`. -/
def nix32CharAt (hash : Bytes) (n : Nat) : Char :=
  let b := n * 5
  let i := b / 8
  let j := b % 8
  let c0 := if i < hash.length then hash.getD i 0 >>> j else 0
  let c := if i + 1 < hash.length then c0 ||| (hash.getD (i + 1) 0 <<< (8 - j)) % 256 else c0
  nix32Chars.getD (c &&& 31) '0'

/-- Model of `nixBase32Encode`: the loop runs `n` from `len-1` down to `0`,
writing `s[len-1-n]`; position `k` of the output therefore holds the character
for `n = len-1-k`. -/
def nixBase32Encode (hash : Bytes) : List Char :=
  let l := (hash.length * 8 - 1) / 5 + 1
  (List.range l).reverse.map (nix32CharAt hash)

example : nixBase32Encode (List.replicate 32 0) = List.replicate 52 '0' := by decide

/-! ## NarInfo parsing, signature verification and the resolver (`main.go`).

Go strings are modelled as `List Char`; narinfo bodies arrive as the list of
lines produced by `bufio.Scanner`.  The Ed25519 primitive, base64 decoding and
the trusted-key map populated at startup are external collaborators, passed in
as a `Config` of abstract functions. -/

/-- Go strings of `main.go`, as character lists. -/
abbrev Str := List Char

/-- Transliteration of a Go string literal. -/
def lit (s : String) : Str := s.data

/-- Model of `strings.HasPrefix`. -/
def hasPref (s p : Str) : Bool := decide (s.take p.length = p)

/-- Model of `strings.Cut(s, sep)`: split around the first occurrence of
`sep`, `none` when `sep` does not occur (`ok == false` in Go). -/
def goCut (sep : Str) : Str → Option (Str × Str)
  | [] => if hasPref [] sep then some ([], []) else none
  | c :: rest =>
    if hasPref (c :: rest) sep then some ([], (c :: rest).drop sep.length)
    else (goCut sep rest).map (fun pr => (c :: pr.1, pr.2))

/-- ASCII portion of `unicode.IsSpace`, as used by `strings.Fields` on the
whitespace that occurs in narinfo files. -/
def isSpaceChar (c : Char) : Bool :=
  c = ' ' || c = '\t' || c = '\n' || c = '\r' || c = '\x0b' || c = '\x0c'

/-- Model of `strings.Fields`: the maximal runs of non-whitespace characters. -/
def goFields (s : Str) : List Str :=
  let p := s.foldr
    (fun c (acc : List Str × Str) =>
      if isSpaceChar c then (if acc.2 = [] then acc.1 else acc.2 :: acc.1, [])
      else (acc.1, c :: acc.2))
    ([], [])
  if p.2 = [] then p.1 else p.2 :: p.1

example : goFields (lit " a  b ") = [lit "a", lit "b"] := by decide

/-- The `narInfo` map of `fetchNarInfo` (`map[string]string`): an association
list where the most recent write shadows older ones. -/
abbrev NIMap := List (Str × Str)

/-- Map update (`narInfo[key] = value`): prepend, so lookups see the latest
write, matching Go map assignment. -/
def mapSet (m : NIMap) (k v : Str) : NIMap := (k, v) :: m

/-- Map lookup returning Go's zero value `""` for absent keys. -/
def mapGet : NIMap → Str → Str
  | [], _ => []
  | (k, v) :: rest, key => if k = key then v else mapGet rest key

/-- Whether the map holds a key (the `value, ok := m[k]` form). -/
def mapHasKey : NIMap → Str → Bool
  | [], _ => false
  | (k, _) :: rest, key => if k = key then true else mapHasKey rest key

/-- Numeric value of a digit run, `none` if empty or non-digit (base 10). -/
def digitsToNat : Str → Option Nat
  | [] => none
  | ds => ds.foldl
      (fun acc c => match acc with
        | none => none
        | some n => if '0' ≤ c ∧ c ≤ '9' then some (n * 10 + (c.toNat - 48)) else none)
      (some 0)

/-- Model of `strconv.ParseInt(s, 10, 64)`: optional sign, decimal digits,
64-bit range check (out-of-range input returns an error in Go). -/
def goParseInt (s : Str) : Option Int :=
  match s with
  | [] => none
  | c :: rest =>
    let signed : Bool × Str :=
      if c = '-' then (true, rest) else if c = '+' then (false, rest) else (false, c :: rest)
    match digitsToNat signed.2 with
    | none => none
    | some n =>
      let v : Int := if signed.1 then -(n : Int) else (n : Int)
      if v < -(2 ^ 63) ∨ v > 2 ^ 63 - 1 then none else some v

example : goParseInt (lit "-17") = some (-17) := by decide
example : goParseInt (lit "") = none := by decide
example : goParseInt (lit "1x") = none := by decide

/-- Byte-lexicographic `≤` on strings, as used by `sort.Strings`. -/
def strLe : Str → Str → Bool
  | [], _ => true
  | _ :: _, [] => false
  | a :: as, b :: bs => if a < b then true else if b < a then false else strLe as bs

/-- Insert into a sorted list (helper of `sortStrings`). -/
def insertStr (x : Str) : List Str → List Str
  | [] => [x]
  | y :: ys => if strLe x y then x :: y :: ys else y :: insertStr x ys

/-- Extensional model of `sort.Strings`: sort ascending by `strLe`. -/
def sortStrings : List Str → List Str
  | [] => []
  | x :: xs => insertStr x (sortStrings xs)

example : sortStrings [lit "b", lit "a"] = [lit "a", lit "b"] := by decide

/-- State built by the scanner loop of `fetchNarInfo`: the raw key/value map
plus the three specially handled fields (`References` split into fields,
`URL` resolved against the substituter, `StorePath` remembered for the
consistency check). -/
structure Parsed where
  map : NIMap
  references : List Str
  narURL : Str
  infoStorePath : Str
deriving DecidableEq, Repr

/-- One iteration of the scanner loop: `strings.Cut(line, ": ")`; lines
without the separator are skipped; recognized keys update the special
fields. -/
def parseLine (substituter : Str) (st : Parsed) (line : Str) : Parsed :=
  match goCut (lit ": ") line with
  | none => st
  | some (key, value) =>
    let st := { st with map := mapSet st.map key value }
    if key = lit "References" then { st with references := goFields value }
    else if key = lit "URL" then { st with narURL := substituter ++ lit "/" ++ value }
    else if key = lit "StorePath" then { st with infoStorePath := value }
    else st

/-- The whole scanner loop of `fetchNarInfo` over the response lines. -/
def parseNarInfo (substituter : Str) (lines : List Str) : Parsed :=
  lines.foldl (parseLine substituter) ⟨[], [], [], []⟩

/-- Model of `buildSignatureMessage`: `1;StorePath;NarHash;NarSize;` followed
by the comma-joined references, each prefixed with the literal `/nix/store/`
(taken from the raw `References` value, split on whitespace, in file order). -/
def joinRefs (refs : List Str) : Str :=
  List.intercalate (lit ",") (refs.map (fun r => lit "/nix/store/" ++ r))

/-- The exact field concatenation of `buildSignatureMessage`
(`fmt.Sprintf("1;%s;%s;%s;%s", ...)`). -/
def msgOf (storePath narHash narSize refsJoined : Str) : Str :=
  lit "1;" ++ storePath ++ lit ";" ++ narHash ++ lit ";" ++ narSize ++ lit ";" ++ refsJoined

/-- Model of `buildSignatureMessage` applied to the narinfo map. -/
def buildSignatureMessage (m : NIMap) : Str :=
  msgOf (mapGet m (lit "StorePath")) (mapGet m (lit "NarHash")) (mapGet m (lit "NarSize"))
    (joinRefs (goFields (mapGet m (lit "References"))))

/-- External collaborators of the resolver: the trusted-key set populated at
startup, base64 decoding, and the Ed25519 `Verify` primitive
(`pubkey → message → signature → Bool`). -/
structure Config where
  knownKeys : Str → Option Str
  base64Decode : Str → Option Str
  ed25519Verify : Str → Str → Str → Bool

/-- Errors surfaced by `fetchNarInfo` and `verifyNarInfoSignature`. -/
inductive FErr where
  | storePathMismatch (want got : Str)
  | noSignature
  | invalidSigFormat
  | unknownKey (name : Str)
  | badSigEncoding
  | badSignature
  | invalidNarSize
  | unsupportedHashAlgorithm (h : Str)
deriving DecidableEq, Repr

/-- Model of `verifyNarInfoSignature`: require a `Sig` entry, split it at the
first `:` into key name and base64 body, resolve the key, decode the body,
verify the Ed25519 signature over `buildSignatureMessage`. -/
def verifyNarInfoSignature (cfg : Config) (m : NIMap) : Except FErr Unit :=
  if mapHasKey m (lit "Sig") = false then .error .noSignature
  else
    match goCut (lit ":") (mapGet m (lit "Sig")) with
    | none => .error .invalidSigFormat
    | some (keyName, sigBase64) =>
      match cfg.knownKeys keyName with
      | none => .error (.unknownKey keyName)
      | some publicKey =>
        match cfg.base64Decode sigBase64 with
        | none => .error .badSigEncoding
        | some signature =>
          if cfg.ed25519Verify publicKey (buildSignatureMessage m) signature then .ok ()
          else .error .badSignature

/-- The resolver's per-path record (`StorePath` struct of `main.go`). -/
structure SPRec where
  basePath : Str
  references : List Str
  narURL : Str
  compression : Str
  narSize : Int
  narHash : Str
deriving DecidableEq, Repr

/-- Model of `fetchNarInfo` after the HTTP fetch succeeded with the given
body lines from the given substituter: parse the lines, check
`"/nix/store/" + storeBase` against the `StorePath` field, verify the
signature, parse `NarSize`, require the `sha256:` hash algorithm, and return
the record with lexicographically sorted references. -/
def fetchNarInfo (cfg : Config) (storeBase : Str) (lines : List Str)
    (substituter : Str) : Except FErr SPRec :=
  let p := parseNarInfo substituter lines
  let storePath := lit "/nix/store/" ++ storeBase
  if storePath ≠ p.infoStorePath then .error (.storePathMismatch storePath p.infoStorePath)
  else
    match verifyNarInfoSignature cfg p.map with
    | .error e => .error e
    | .ok _ =>
      match goParseInt (mapGet p.map (lit "NarSize")) with
      | none => .error .invalidNarSize
      | some narSize =>
        let narHash := mapGet p.map (lit "NarHash")
        if hasPref narHash (lit "sha256:") = false then
          .error (.unsupportedHashAlgorithm narHash)
        else
          .ok { basePath := storeBase, references := sortStrings p.references,
                narURL := p.narURL, compression := mapGet p.map (lit "Compression"),
                narSize := narSize, narHash := narHash }

/-- Model of `strings.TrimPrefix`. -/
def trimPref (p s : Str) : Str := if hasPref s p then s.drop p.length else s

/-- BFS loop of `discoverDependencies`: pop the queue head, skip if visited,
mark visited, skip if the path exists on disk, otherwise record it and
enqueue its not-yet-visited references.  The environment is the reference
graph served by the substituters (`refsOf`, every narinfo fetch succeeding)
and the on-disk predicate; `fuel` bounds the loop of the unbounded source. -/
def bfsLoop (onDisk : Str → Bool) (refsOf : Str → List Str) :
    Nat → List Str → List Str → List Str → Option (List Str)
  | 0, _, _, _ => none
  | _ + 1, _, [], acc => some acc
  | fuel + 1, visited, p :: rest, acc =>
    if p ∈ visited then bfsLoop onDisk refsOf fuel visited rest acc
    else
      let visited' := p :: visited
      if onDisk p then bfsLoop onDisk refsOf fuel visited' rest acc
      else
        bfsLoop onDisk refsOf fuel visited'
          (rest ++ (refsOf p).filter (fun r => decide (¬ r ∈ visited'))) (acc ++ [p])

/-- Model of `discoverDependencies`: strip the `/nix/store/` prefix, run the
BFS from the initial base, and reverse the result (the returned list holds
the `BasePath` of each produced record, in output order). -/
def discoverDependencies (onDisk : Str → Bool) (refsOf : Str → List Str)
    (fuel : Nat) (initialPath : Str) : Option (List Str) :=
  (bfsLoop onDisk refsOf fuel [] [trimPref (lit "/nix/store/") initialPath] []).map
    List.reverse

/-- The output-order property claimed for the resolver: no duplicates, and
every reference of every returned base is on disk or listed earlier. -/
def topoOkAux (onDisk : Str → Bool) (refsOf : Str → List Str) :
    List Str → List Str → Bool
  | _, [] => true
  | seen, p :: rest =>
    decide (¬ p ∈ seen) && (refsOf p).all (fun r => onDisk r || decide (r ∈ seen))
      && topoOkAux onDisk refsOf (seen ++ [p]) rest

/-- Top-level form of the output-order property. -/
def topoOk (onDisk : Str → Bool) (refsOf : Str → List Str) (out : List Str) : Bool :=
  topoOkAux onDisk refsOf [] out

/-! ## Fetch-and-manifest pipeline (`fetchAndManifestStorePath` in `main.go`).

The network, the decompressor libraries and the SHA-256 primitive are external
collaborators; the filesystem is the set of paths that exist.  The NAR
extractor is the byte-level model above, driven on the decompressed stream
after the `io.LimitReader(reader, sp.NarSize)` cap; the hasher sees exactly
the bytes the extractor consumed (the `io.TeeReader` layering). -/

/-- External environment of one pipeline run: whether the HTTP GET (and, for
compressed NARs, decompressor construction) succeeds, and the decompressed
byte stream the body yields. -/
structure NetEnv where
  fetchOk : Bool
  decompressOk : Bool
  body : Bytes

/-- The filesystem as the set of existing paths. -/
abbrev FS := List Str

/-- Model of the deferred cleanup (`os.RemoveAll(tempDir)` when it exists)
and of the removal half of `os.Rename`. -/
def removeTemp (fs : FS) (temp : Str) : FS := fs.filter (fun p => decide (p ≠ temp))

/-- The compression switch of `fetchAndManifestStorePath`: recognized values,
with everything else hitting the `default` error branch. -/
def supportedCompression (c : Str) : Bool :=
  decide (c = lit "none") || decide (c = lit "gzip") || decide (c = lit "xz")
    || decide (c = lit "zstd")

/-- Pipeline errors (`fmt.Errorf` sites of `fetchAndManifestStorePath`). -/
inductive PErr where
  | fetchFailed
  | unsupportedCompression (c : Str)
  | decompressFailed
  | extractFailed (e : NErr)
  | hashMismatch (want got : Str)
deriving DecidableEq, Repr

/-- Model of `fetchAndManifestStorePath`.  `destPath` is the caller-computed
`filepath.Join(nixStore, sp.BasePath)`; the temporary directory is
`nixStore + "/.nix-download_" + sp.BasePath`.  Steps: fetch; choose the
decompressor; cap the stream at `NarSize` bytes; extract (which materializes
the tree at `tempDir`) while hashing the consumed bytes; compare
`"sha256:" + nixBase32Encode(digest)` with the asserted `NarHash`; on match
rename `tempDir` to `destPath`.  Every exit runs the deferred cleanup, which
removes `tempDir` when it still exists. -/
def fetchAndManifestStorePath (sha256 : Bytes → Bytes) (env : NetEnv) (fuel : Nat)
    (nixStore : Str) (destPath : Str) (sp : SPRec) (fs : FS) :
    Except PErr Unit × FS :=
  let tempDir := nixStore ++ lit "/.nix-download_" ++ sp.basePath
  if env.fetchOk = false then (.error .fetchFailed, removeTemp fs tempDir)
  else if supportedCompression sp.compression = false then
    (.error (.unsupportedCompression sp.compression), removeTemp fs tempDir)
  else if sp.compression ≠ lit "none" ∧ env.decompressOk = false then
    (.error .decompressFailed, removeTemp fs tempDir)
  else
    let limited := env.body.take sp.narSize.toNat
    match Extract fuel (limited, none) with
    | .error e => (.error (.extractFailed e), removeTemp fs tempDir)
    | .ok (_, r') =>
      let fs1 := tempDir :: fs
      let consumed := limited.take (limited.length - r'.1.length)
      let computedHash := lit "sha256:" ++ nixBase32Encode (sha256 consumed)
      if computedHash ≠ sp.narHash then
        (.error (.hashMismatch sp.narHash computedHash), removeTemp fs1 tempDir)
      else
        (.ok (), removeTemp (destPath :: removeTemp fs1 tempDir) tempDir)

/-! ## Theorems -/

/-- C7: refuted on the code (code bug).  The spec says a negative decoded
int64 is a protocol error, i.e. the reader returns a descriptive error and
does not crash.  In fact `readString` on a negative length panics: for
lengths `-1 .. -7` the computed padding makes `data[:len(data)-padding]`
reslice out of range, and for lengths `≤ -8` `make([]byte, length+padding)`
is called with a negative size.  Both runtime panics are exhibited below on
concrete 8-byte inputs (`-1` and `-8`, little-endian). -/
theorem c7_negative_string_length_panics :
    readString (List.replicate 8 255, none) = .error .panicSliceBounds ∧
    readString (248 :: List.replicate 7 255, none) = .error .panicMakeSlice :=
  ⟨rfl, rfl⟩

/-- On-disk predicate of the C2 counter-scenario: nothing is present. -/
def c2OnDisk : Str → Bool := fun _ => false

/-- Reference graph of the C2 counter-scenario: `a → {b, c}` and `c → {b}`,
a perfectly ordinary diamond-shaped dependency graph. -/
def c2Refs : Str → List Str := fun s =>
  if s = lit "a" then [lit "b", lit "c"]
  else if s = lit "c" then [lit "b"] else []

/-- C2: refuted on the code (code bug).  BFS from `a` over the graph
`a → {b, c}`, `c → {b}` visits `a, b, c`; reversing yields `[c, b, a]`, in
which `c` precedes its own reference `b`, so the claimed property — every
reference of a returned path is on disk or appears earlier — fails.  The
code's own comment (`// Reverse to get a proper topological sorted order`)
asserts the property the output violates: reversing a BFS order is not a
topological sort when a deeper ancestor references a sibling visited
earlier. -/
theorem c2_reverse_bfs_not_topological :
    discoverDependencies c2OnDisk c2Refs 10 (lit "a") =
      some [lit "c", lit "b", lit "a"] ∧
    topoOk c2OnDisk c2Refs [lit "c", lit "b", lit "a"] = false :=
  ⟨by decide, by decide⟩

/-- Any alphabet index masked with `0x1f` selects a character of the
alphabet. -/
theorem nix32_getD_mem (m : Nat) : nix32Chars.getD (m &&& 31) '0' ∈ nix32Chars := by
  have hlt : m &&& 31 < 32 := Nat.lt_succ_of_le Nat.and_le_right
  have hlen : nix32Chars.length = 32 := by decide
  rw [List.getD_eq_getElem _ _ (by omega)]
  exact List.getElem_mem ..

/-- C9: confirmed.  For every non-empty digest of `H` bytes the encoder is a
pure function returning exactly `⌊(H·8 − 1)/5⌋ + 1` characters (stated both
in `Nat` arithmetic, which is what the Go `int` computation performs, and
with mathematical floor over `ℤ`, which agrees for `H ≥ 1`); every output
character is drawn from the 32-character alphabet; and the 32-byte all-zero
digest encodes to 52 `'0'` characters. -/
theorem c9_nix_base32_encoder :
    (∀ hash : Bytes, hash ≠ [] →
      (nixBase32Encode hash).length = (hash.length * 8 - 1) / 5 + 1 ∧
      ((hash.length * 8 : Int) - 1) / 5 + 1 = ((nixBase32Encode hash).length : Int)) ∧
    (∀ (hash : Bytes) (c : Char), c ∈ nixBase32Encode hash → c ∈ nix32Chars) ∧
    nixBase32Encode (List.replicate 32 0) = List.replicate 52 '0' := by
  refine ⟨fun hash h => ?_, fun hash c hc => ?_, by decide⟩
  · have hl : 0 < hash.length := List.length_pos.mpr h
    have len_eq : (nixBase32Encode hash).length = (hash.length * 8 - 1) / 5 + 1 := by
      simp [nixBase32Encode]
    exact ⟨len_eq, by rw [len_eq]; omega⟩
  · simp only [nixBase32Encode, List.mem_map] at hc
    obtain ⟨n, -, rfl⟩ := hc
    simp only [nix32CharAt]
    exact nix32_getD_mem _

/-- C9 witness: the length law applied at the 32-byte all-zero digest. -/
theorem c9_nix_base32_encoder_witness :
    (nixBase32Encode (List.replicate 32 0)).length =
      ((List.replicate 32 (0 : Nat)).length * 8 - 1) / 5 + 1 :=
  (c9_nix_base32_encoder.1 (List.replicate 32 0) (by decide)).1

/-- Success inversion for `fetchNarInfo`: everything the accepting path
establishes about the parsed narinfo and the returned record. -/
theorem fetchNarInfo_ok_inv (cfg : Config) (base : Str) (lines : List Str)
    (subst : Str) (sp : SPRec) (h : fetchNarInfo cfg base lines subst = .ok sp) :
    (parseNarInfo subst lines).infoStorePath = lit "/nix/store/" ++ base ∧
    verifyNarInfoSignature cfg (parseNarInfo subst lines).map = .ok () ∧
    goParseInt (mapGet (parseNarInfo subst lines).map (lit "NarSize")) = some sp.narSize ∧
    sp.narHash = mapGet (parseNarInfo subst lines).map (lit "NarHash") ∧
    hasPref sp.narHash (lit "sha256:") = true ∧
    sp.references = sortStrings (parseNarInfo subst lines).references ∧
    sp.basePath = base := by
  simp only [fetchNarInfo] at h
  split at h
  · exact absurd h (by simp)
  · next hne =>
    split at h
    · exact absurd h (by simp)
    · next u hver =>
      split at h
      · exact absurd h (by simp)
      · next n hsize =>
        split at h
        · exact absurd h (by simp)
        · next hpref =>
          cases h
          refine ⟨(not_ne_iff.mp hne).symm, ?_, hsize, rfl, ?_, rfl, rfl⟩
          · cases u; exact hver
          · simpa using hpref

/-- A configuration whose collaborators always cooperate: one trusted key
named `k`, base64 decoding the identity, Ed25519 verification accepting. -/
def cfgA : Config where
  knownKeys := fun k => if k = lit "k" then some (lit "PK") else none
  base64Decode := fun s => some s
  ed25519Verify := fun _ _ _ => true

/-- A well-formed narinfo body for store base `b`, with canonical
`/nix/store/` store path. -/
def linesB : List Str :=
  [lit "StorePath: /nix/store/b", lit "NarHash: sha256:x",
   lit "NarSize: 7", lit "Sig: k:s"]

/-- The record `fetchNarInfo` returns for `linesB`. -/
def spB : SPRec :=
  { basePath := lit "b", references := [], narURL := [], compression := [],
    narSize := 7, narHash := lit "sha256:x" }

example : fetchNarInfo cfgA (lit "b") linesB (lit "s") = .ok spB := rfl

/-- C1 as the specification states it: acceptance forces the `StorePath`
field to equal `<configured store root>/<requested base>`. -/
def claimC1 : Prop :=
  ∀ (storeRoot : Str) (cfg : Config) (base : Str) (lines : List Str)
    (subst : Str) (sp : SPRec),
    fetchNarInfo cfg base lines subst = .ok sp →
    (parseNarInfo subst lines).infoStorePath = storeRoot ++ lit "/" ++ base

/-- C1 counterexample: with configured store root `/custom`, `fetchNarInfo`
accepts a narinfo whose `StorePath` is `/nix/store/b`, not `/custom/b` — the
code compares against the hardcoded literal `/nix/store/`; the configured
root (`nixStore` in `main.go`) is never consulted by the parser. -/
theorem c1_counterexample : ¬ claimC1 := fun h =>
  absurd (h (lit "/custom") cfgA (lit "b") linesB (lit "s") spB rfl) (by decide)

/-- C1 amended: the resolver rejects the narinfo unless its `StorePath`
field equals `"/nix/store/" + <requested base>`, regardless of the store
root the resolver was configured with. -/
theorem c1_store_path_check (cfg : Config) (base : Str) (lines : List Str)
    (subst : Str) (sp : SPRec) (h : fetchNarInfo cfg base lines subst = .ok sp) :
    (parseNarInfo subst lines).infoStorePath = lit "/nix/store/" ++ base :=
  (fetchNarInfo_ok_inv cfg base lines subst sp h).1

/-- C1 witness: the amended check evaluated on the concrete accepting run. -/
theorem c1_store_path_check_witness :
    (parseNarInfo (lit "s") linesB).infoStorePath = lit "/nix/store/" ++ lit "b" :=
  c1_store_path_check cfgA (lit "b") linesB (lit "s") spB rfl

/-- A narinfo body identical to `linesB` except that `NarSize` is `-1`. -/
def linesNeg : List Str :=
  [lit "StorePath: /nix/store/b", lit "NarHash: sha256:x",
   lit "NarSize: -1", lit "Sig: k:s"]

/-- The record `fetchNarInfo` returns for `linesNeg`: note the negative
`narSize`. -/
def spNeg : SPRec :=
  { basePath := lit "b", references := [], narURL := [], compression := [],
    narSize := -1, narHash := lit "sha256:x" }

/-- C8 as the specification states it: every returned record has a
`sha256:`-prefixed hash and a non-negative size. -/
def claimC8 : Prop :=
  ∀ (cfg : Config) (base : Str) (lines : List Str) (subst : Str) (sp : SPRec),
    fetchNarInfo cfg base lines subst = .ok sp →
    hasPref sp.narHash (lit "sha256:") = true ∧ 0 ≤ sp.narSize

/-- C8 counterexample: `strconv.ParseInt` accepts `-1`, and `fetchNarInfo`
performs no non-negativity check, so a (signed, trusted) narinfo declaring
`NarSize: -1` yields a record with `nar_size = -1 < 0`. -/
theorem c8_counterexample : ¬ claimC8 := fun h =>
  absurd (h cfgA (lit "b") linesNeg (lit "s") spNeg rfl).2 (by decide)

/-- C8 amended: every returned record's `nar_hash` does carry the `sha256:`
prefix (any other algorithm is rejected), and its `nar_size` is exactly the
64-bit integer parsed from the `NarSize` field — which may be negative; the
code never checks the sign. -/
theorem c8_record_invariants (cfg : Config) (base : Str) (lines : List Str)
    (subst : Str) (sp : SPRec) (h : fetchNarInfo cfg base lines subst = .ok sp) :
    hasPref sp.narHash (lit "sha256:") = true ∧
    goParseInt (mapGet (parseNarInfo subst lines).map (lit "NarSize")) = some sp.narSize := by
  have inv := fetchNarInfo_ok_inv cfg base lines subst sp h
  exact ⟨inv.2.2.2.2.1, inv.2.2.1⟩

/-- C8 witness: the amended invariants on the concrete accepting run. -/
theorem c8_record_invariants_witness :
    hasPref spB.narHash (lit "sha256:") = true ∧
    goParseInt (mapGet (parseNarInfo (lit "s") linesB).map (lit "NarSize")) = some spB.narSize :=
  c8_record_invariants cfgA (lit "b") linesB (lit "s") spB rfl

/-- One scanner-loop step preserves the link between the raw `References`
map entry and the split reference list. -/
theorem parseLine_references (subst : Str) (st : Parsed) (line : Str)
    (h : goFields (mapGet st.map (lit "References")) = st.references) :
    goFields (mapGet (parseLine subst st line).map (lit "References")) =
      (parseLine subst st line).references := by
  unfold parseLine
  cases hc : goCut (lit ": ") line with
  | none => exact h
  | some kv =>
    obtain ⟨k, v⟩ := kv
    dsimp only
    by_cases hk : k = lit "References"
    · subst hk
      simp [mapSet, mapGet]
    · have hm : mapGet (mapSet st.map k v) (lit "References") =
          mapGet st.map (lit "References") := by
        simp [mapSet, mapGet, hk]
      rw [if_neg hk]
      by_cases h2 : k = lit "URL"
      · rw [if_pos h2]
        simpa [hm] using h
      · rw [if_neg h2]
        by_cases h3 : k = lit "StorePath"
        · rw [if_pos h3]
          simpa [hm] using h
        · rw [if_neg h3]
          simpa [hm] using h

/-- The reference fields the signature message is built from are exactly the
`references` list the scanner loop recorded, in file order. -/
theorem parseNarInfo_references (subst : Str) (lines : List Str) :
    goFields (mapGet (parseNarInfo subst lines).map (lit "References")) =
      (parseNarInfo subst lines).references := by
  suffices h : ∀ st : Parsed, goFields (mapGet st.map (lit "References")) = st.references →
      goFields (mapGet (lines.foldl (parseLine subst) st).map (lit "References")) =
        (lines.foldl (parseLine subst) st).references from
    h ⟨[], [], [], []⟩ (by decide)
  induction lines with
  | nil => exact fun st h => h
  | cons l ls ih => exact fun st h => ih _ (parseLine_references subst st l h)

/-- Success inversion for `verifyNarInfoSignature`: the accepting path pins
down the key, the decoded signature, and a `true` answer of the Ed25519
primitive on `buildSignatureMessage`. -/
theorem verifyNarInfoSignature_ok_inv (cfg : Config) (m : NIMap)
    (h : verifyNarInfoSignature cfg m = .ok ()) :
    ∃ keyName sigBody publicKey signature,
      goCut (lit ":") (mapGet m (lit "Sig")) = some (keyName, sigBody) ∧
      cfg.knownKeys keyName = some publicKey ∧
      cfg.base64Decode sigBody = some signature ∧
      cfg.ed25519Verify publicKey (buildSignatureMessage m) signature = true := by
  unfold verifyNarInfoSignature at h
  split at h
  · cases h
  · split at h
    · cases h
    · next keyName sigBody hcut =>
      split at h
      · cases h
      · next publicKey hkey =>
        split at h
        · cases h
        · next signature hdec =>
          split at h
          · next hver => exact ⟨keyName, sigBody, publicKey, signature, hcut, hkey, hdec, hver⟩
          · cases h

/-- C10: confirmed.  For every accepted narinfo, the signed message is built
from the references in the exact order they appear on the `References` line
(`goFields` of the raw value, which equals the scanner's `references` list in
file order), the Ed25519 primitive is invoked on exactly that message, and
the lexicographic sort is applied only to the reference list stored in the
returned record — the sorted order never enters the signed message. -/
theorem c10_sorted_after_verification (cfg : Config) (base : Str) (lines : List Str)
    (subst : Str) (sp : SPRec) (h : fetchNarInfo cfg base lines subst = .ok sp) :
    buildSignatureMessage (parseNarInfo subst lines).map =
      msgOf (mapGet (parseNarInfo subst lines).map (lit "StorePath"))
        (mapGet (parseNarInfo subst lines).map (lit "NarHash"))
        (mapGet (parseNarInfo subst lines).map (lit "NarSize"))
        (joinRefs (parseNarInfo subst lines).references) ∧
    sp.references = sortStrings (parseNarInfo subst lines).references ∧
    ∃ keyName sigBody publicKey signature,
      goCut (lit ":") (mapGet (parseNarInfo subst lines).map (lit "Sig")) =
        some (keyName, sigBody) ∧
      cfg.knownKeys keyName = some publicKey ∧
      cfg.base64Decode sigBody = some signature ∧
      cfg.ed25519Verify publicKey (buildSignatureMessage (parseNarInfo subst lines).map)
        signature = true := by
  have inv := fetchNarInfo_ok_inv cfg base lines subst sp h
  refine ⟨?_, inv.2.2.2.2.2.1, verifyNarInfoSignature_ok_inv cfg _ inv.2.1⟩
  unfold buildSignatureMessage
  rw [parseNarInfo_references]

/-- Narinfo body with an unsorted `References` line (`r2` before `r1`). -/
def linesRefs : List Str :=
  [lit "StorePath: /nix/store/b", lit "NarHash: sha256:x", lit "NarSize: 7",
   lit "References: r2 r1", lit "Sig: k:s"]

/-- The record `fetchNarInfo` returns for `linesRefs`: references sorted. -/
def spRefs : SPRec :=
  { basePath := lit "b", references := [lit "r1", lit "r2"], narURL := [],
    compression := [], narSize := 7, narHash := lit "sha256:x" }

/-- C10 witness: on the concrete unsorted-references narinfo, the record is
sorted while the parse order (hence the signed message) is `r2, r1`. -/
theorem c10_sorted_after_verification_witness :
    spRefs.references = sortStrings (parseNarInfo (lit "s") linesRefs).references :=
  (c10_sorted_after_verification cfgA (lit "b") linesRefs (lit "s") spRefs rfl).2.1

example : (parseNarInfo (lit "s") linesRefs).references = [lit "r2", lit "r1"] := rfl
example : sortStrings [lit "r2", lit "r1"] = [lit "r1", lit "r2"] := rfl

/-- C3 as the specification states it (contrapositive form): equal signature
messages force equal `StorePath`, `NarHash`, `NarSize` and `References`
values — i.e. mutating any of the four fields changes the message. -/
def claimC3 : Prop :=
  ∀ m m' : NIMap,
    buildSignatureMessage m = buildSignatureMessage m' →
    mapGet m (lit "StorePath") = mapGet m' (lit "StorePath") ∧
    mapGet m (lit "NarHash") = mapGet m' (lit "NarHash") ∧
    mapGet m (lit "NarSize") = mapGet m' (lit "NarSize") ∧
    mapGet m (lit "References") = mapGet m' (lit "References")

/-- Narinfo map with `References: a b`. -/
def mapR1 : NIMap :=
  [(lit "StorePath", lit "p"), (lit "NarHash", lit "h"), (lit "NarSize", lit "1"),
   (lit "References", lit "a b"), (lit "Sig", lit "k:s")]

/-- The same map except `References: a  b` (two spaces). -/
def mapR2 : NIMap :=
  [(lit "StorePath", lit "p"), (lit "NarHash", lit "h"), (lit "NarSize", lit "1"),
   (lit "References", lit "a  b"), (lit "Sig", lit "k:s")]

/-- The same map as `mapR1` except `NarHash: h2`. -/
def mapH2 : NIMap :=
  [(lit "StorePath", lit "p"), (lit "NarHash", lit "h2"), (lit "NarSize", lit "1"),
   (lit "References", lit "a b"), (lit "Sig", lit "k:s")]

/-- C3 counterexample: `References: a b` and `References: a  b` are distinct
field values, yet `strings.Fields` erases the difference, so both narinfos
produce the identical signed message — mutating the `References` field does
not always change the message. -/
theorem c3_counterexample : ¬ claimC3 := fun h =>
  absurd (h mapR1 mapR2 (by decide)).2.2.2 (by decide)

/-- C3 amended: the signed byte string is exactly
`1;StorePath;NarHash;NarSize;Refs` with each reference prefixed by the
literal `/nix/store/` and no trailing newline; mutating `StorePath`,
`NarHash` or `NarSize` (the raw values entering the message) always changes
the message, and mutating `References` changes it exactly when the rendered
comma-joined reference list changes; any change of message makes a
message-binding Ed25519 verifier reject. -/
theorem c3_signature_message :
    (∀ m : NIMap, buildSignatureMessage m =
      msgOf (mapGet m (lit "StorePath")) (mapGet m (lit "NarHash"))
        (mapGet m (lit "NarSize")) (joinRefs (goFields (mapGet m (lit "References"))))) ∧
    (∀ a a' b c d : Str, msgOf a b c d = msgOf a' b c d → a = a') ∧
    (∀ a b b' c d : Str, msgOf a b c d = msgOf a b' c d → b = b') ∧
    (∀ a b c c' d : Str, msgOf a b c d = msgOf a b c' d → c = c') ∧
    (∀ a b c d d' : Str, msgOf a b c d = msgOf a b c d' → d = d') ∧
    (∀ (cfg : Config) (m m' : NIMap),
      verifyNarInfoSignature cfg m = .ok () →
      mapHasKey m' (lit "Sig") = true →
      mapGet m' (lit "Sig") = mapGet m (lit "Sig") →
      buildSignatureMessage m' ≠ buildSignatureMessage m →
      (∀ pk x y s, cfg.ed25519Verify pk x s = true → cfg.ed25519Verify pk y s = true →
        x = y) →
      verifyNarInfoSignature cfg m' = .error .badSignature) := by
  refine ⟨fun m => rfl, ?_, ?_, ?_, ?_, ?_⟩
  · intro a a' b c d h
    simp only [msgOf] at h
    exact List.append_cancel_left (List.append_cancel_right (List.append_cancel_right
      (List.append_cancel_right (List.append_cancel_right (List.append_cancel_right
        (List.append_cancel_right h))))))
  · intro a b b' c d h
    simp only [msgOf] at h
    exact List.append_cancel_left (List.append_cancel_right (List.append_cancel_right
      (List.append_cancel_right (List.append_cancel_right h))))
  · intro a b c c' d h
    simp only [msgOf] at h
    exact List.append_cancel_left (List.append_cancel_right (List.append_cancel_right h))
  · intro a b c d d' h
    simp only [msgOf] at h
    exact List.append_cancel_left h
  · intro cfg m m' hok hhas hsig hneq hbind
    obtain ⟨keyName, sigBody, publicKey, signature, hcut, hkey, hdec, hver⟩ :=
      verifyNarInfoSignature_ok_inv cfg m hok
    unfold verifyNarInfoSignature
    rw [hhas]
    simp only [Bool.true_eq_false, if_false, hsig, hcut, hkey, hdec]
    have hv : cfg.ed25519Verify publicKey (buildSignatureMessage m') signature = false := by
      cases hv : cfg.ed25519Verify publicKey (buildSignatureMessage m') signature with
      | false => rfl
      | true => exact absurd (hbind publicKey _ _ signature hv hver) hneq
    rw [hv]
    simp

/-- C3 witness: the binding-verifier consequence applied concretely — a
verifier bound to the message of `mapR1` rejects the narinfo whose `NarHash`
was mutated from `h` to `h2`. -/
def cfgBind : Config where
  knownKeys := fun _ => some (lit "PK")
  base64Decode := fun s => some s
  ed25519Verify := fun _ x _ => decide (x = buildSignatureMessage mapR1)

/-- C3 witness theorem (see `cfgBind`). -/
theorem c3_signature_message_witness :
    verifyNarInfoSignature cfgBind mapH2 = .error .badSignature :=
  c3_signature_message.2.2.2.2.2 cfgBind mapR1 mapH2 rfl rfl rfl (by decide)
    (fun _ _ _ _ hx hy => (of_decide_eq_true hx).trans (of_decide_eq_true hy).symm)

/-- The temp directory never survives its own cleanup. -/
theorem removeTemp_not_mem (fs : FS) (t : Str) : t ∉ removeTemp fs t := by
  simp [removeTemp]

/-- Cleanup only removes paths. -/
theorem removeTemp_sub {fs : FS} {p t : Str} (h : p ∈ removeTemp fs t) : p ∈ fs := by
  simp [removeTemp] at h
  exact h.1

/-- The temp path and the destination path of one store base differ (their
lengths differ by the `.nix-download_` marker). -/
theorem tempDir_ne_destPath (root b : Str) :
    root ++ lit "/.nix-download_" ++ b ≠ root ++ lit "/" ++ b := by
  intro h
  have hl := congrArg List.length h
  rw [List.length_append, List.length_append, List.length_append, List.length_append] at hl
  have h1 : (lit "/.nix-download_").length = 15 := rfl
  have h2 : (lit "/").length = 1 := rfl
  rw [h1, h2] at hl
  omega

/-- C5: confirmed.  With the temp and destination paths initially absent, a
successful per-path pipeline run leaves the destination existing and the
temp directory gone, and a run failing at any step leaves the temp directory
gone and the destination not created. -/
theorem c5_atomic_promotion (sha : Bytes → Bytes) (env : NetEnv) (fuel : Nat)
    (root : Str) (sp : SPRec) (fs : FS) (destPath tempDir : Str)
    (hdestdef : destPath = root ++ lit "/" ++ sp.basePath)
    (htempdef : tempDir = root ++ lit "/.nix-download_" ++ sp.basePath)
    (htemp : tempDir ∉ fs) (hdest : destPath ∉ fs) :
    ((fetchAndManifestStorePath sha env fuel root destPath sp fs).1 = .ok () →
      destPath ∈ (fetchAndManifestStorePath sha env fuel root destPath sp fs).2 ∧
      tempDir ∉ (fetchAndManifestStorePath sha env fuel root destPath sp fs).2) ∧
    (∀ e, (fetchAndManifestStorePath sha env fuel root destPath sp fs).1 = .error e →
      tempDir ∉ (fetchAndManifestStorePath sha env fuel root destPath sp fs).2 ∧
      destPath ∉ (fetchAndManifestStorePath sha env fuel root destPath sp fs).2) := by
  have hne : destPath ≠ tempDir := by
    rw [hdestdef, htempdef]
    exact fun h => tempDir_ne_destPath root sp.basePath h.symm
  subst htempdef
  simp only [fetchAndManifestStorePath]
  split
  · exact ⟨fun h => absurd h (by simp),
      fun e _ => ⟨removeTemp_not_mem _ _, fun hm => hdest (removeTemp_sub hm)⟩⟩
  · split
    · exact ⟨fun h => absurd h (by simp),
        fun e _ => ⟨removeTemp_not_mem _ _, fun hm => hdest (removeTemp_sub hm)⟩⟩
    · split
      · exact ⟨fun h => absurd h (by simp),
          fun e _ => ⟨removeTemp_not_mem _ _, fun hm => hdest (removeTemp_sub hm)⟩⟩
      · split
        · exact ⟨fun h => absurd h (by simp),
            fun e _ => ⟨removeTemp_not_mem _ _, fun hm => hdest (removeTemp_sub hm)⟩⟩
        · split
          · exact ⟨fun h => absurd h (by simp),
              fun e _ => ⟨removeTemp_not_mem _ _,
                fun hm => by
                  have := removeTemp_sub hm
                  rcases List.mem_cons.mp this with h | h
                  · exact absurd ((List.mem_filter.mp hm).2) (by simp [h])
                  · exact hdest h⟩⟩
          · refine ⟨fun _ => ⟨?_, removeTemp_not_mem _ _⟩, fun e h => absurd h (by simp)⟩
            have hne' : ¬ destPath = root ++ (lit "/.nix-download_" ++ sp.basePath) := by
              rw [← List.append_assoc]
              exact hne
            simp [removeTemp, hne']

/-- C4: confirmed.  When the NAR is fetched and extracted without error
(fetch succeeds, the compression is supported and its decompressor opens,
extraction over the `NarSize`-capped stream returns a node), the pipeline
fails iff `"sha256:" + nixBase32Encode(sha256(B)) ≠ NarHash`, where `B` is
the decompressed byte stream the extractor consumed (the bytes the tee fed
the hasher); on mismatch the error is the hash mismatch and the destination
is not created. -/
theorem c4_hash_consistency (sha : Bytes → Bytes) (env : NetEnv) (fuel : Nat)
    (root destPath : Str) (sp : SPRec) (fs : FS) (t : NarNode) (r' : Reader)
    (hf : env.fetchOk = true)
    (hc : supportedCompression sp.compression = true)
    (hd : sp.compression = lit "none" ∨ env.decompressOk = true)
    (hx : Extract fuel (env.body.take sp.narSize.toNat, none) = .ok (t, r'))
    (hdest : destPath ∉ fs) :
    ((fetchAndManifestStorePath sha env fuel root destPath sp fs).1 = .ok () ↔
      lit "sha256:" ++ nixBase32Encode (sha ((env.body.take sp.narSize.toNat).take
        ((env.body.take sp.narSize.toNat).length - r'.1.length))) = sp.narHash) ∧
    (lit "sha256:" ++ nixBase32Encode (sha ((env.body.take sp.narSize.toNat).take
        ((env.body.take sp.narSize.toNat).length - r'.1.length))) ≠ sp.narHash →
      (fetchAndManifestStorePath sha env fuel root destPath sp fs).1 =
        .error (.hashMismatch sp.narHash (lit "sha256:" ++ nixBase32Encode
          (sha ((env.body.take sp.narSize.toNat).take
            ((env.body.take sp.narSize.toNat).length - r'.1.length))))) ∧
      destPath ∉ (fetchAndManifestStorePath sha env fuel root destPath sp fs).2) := by
  have hnd : ¬ (sp.compression ≠ lit "none" ∧ env.decompressOk = false) := by
    rcases hd with h | h
    · exact fun hcon => hcon.1 h
    · exact fun hcon => by rw [h] at hcon; exact absurd hcon.2 (by simp)
  simp only [fetchAndManifestStorePath, hf, hc, hx]
  rw [if_neg (by simp), if_neg (by simp), if_neg hnd]
  split
  · next hneq =>
    refine ⟨⟨fun h => absurd h (by simp), fun h => absurd h hneq⟩,
      fun _ => ⟨rfl, fun hm => ?_⟩⟩
    have := removeTemp_sub hm
    rcases List.mem_cons.mp this with h | h
    · exact absurd (List.mem_filter.mp hm).2 (by simp [h])
    · exact hdest h
  · next heq =>
    rw [not_not] at heq
    exact ⟨⟨fun _ => heq, fun _ => rfl⟩, fun hne => absurd heq hne⟩

/-- Concrete NAR stream (a single symlink) for the pipeline witnesses. -/
def narBytesSym : Bytes :=
  encStr (blit "nix-archive-1") ++ encStr (blit "(") ++ encStr (blit "type") ++
    encStr (blit "symlink") ++ encStr (blit "target") ++ encStr (blit "/x") ++
    encStr (blit ")")

/-- Network environment delivering `narBytesSym`. -/
def envSym : NetEnv := { fetchOk := true, decompressOk := true, body := narBytesSym }

/-- Abstract SHA-256 standing in for the primitive in the witnesses. -/
def shaZ : Bytes → Bytes := fun _ => List.replicate 32 0

/-- Resolver record matching `narBytesSym` under `shaZ`. -/
def spSym : SPRec :=
  { basePath := lit "b", references := [], narURL := [], compression := lit "none",
    narSize := 200, narHash := lit "sha256:" ++ List.replicate 52 '0' }

/-- C4 witness: the hash-consistency law applied to the concrete run (the
hash matches, so the pipeline succeeds). -/
theorem c4_hash_consistency_witness :
    (fetchAndManifestStorePath shaZ envSym 10 (lit "/nix/store") (lit "/nix/store/b")
      spSym []).1 = .ok () :=
  (c4_hash_consistency shaZ envSym 10 (lit "/nix/store") (lit "/nix/store/b") spSym []
    (.symlink (blit "/x")) ([], none) rfl rfl (Or.inl rfl) rfl (by simp)).1.mpr (by decide)

/-- C5 witness: atomic promotion observed on the concrete successful run. -/
theorem c5_atomic_promotion_witness :
    lit "/nix/store/b" ∈ (fetchAndManifestStorePath shaZ envSym 10 (lit "/nix/store")
      (lit "/nix/store/b") spSym []).2 ∧
    lit "/nix/store" ++ lit "/.nix-download_" ++ lit "b" ∉
      (fetchAndManifestStorePath shaZ envSym 10 (lit "/nix/store")
        (lit "/nix/store/b") spSym []).2 :=
  (c5_atomic_promotion shaZ envSym 10 (lit "/nix/store") spSym []
    (lit "/nix/store/b") (lit "/nix/store" ++ lit "/.nix-download_" ++ lit "b")
    (by decide) rfl (by simp) (by simp)).1 rfl

/-- Whatever `extractRegularBody` returns satisfies the tree invariant. -/
theorem extractRegularBody_nodeOk (exec : Bool) (f : Bytes) (r : Reader)
    (n : NarNode) (r' : Reader) (h : extractRegularBody exec f r = .ok (n, r')) :
    nodeOk n = true := by
  unfold extractRegularBody at h
  split at h
  · cases h
  · split at h
    · cases h
    · split at h
      · cases h
      · split at h
        · cases h
        · dsimp only at h
          split at h
          · split at h
            · cases h
            · cases h
              rfl
          · cases h
            rfl

/-- Whatever `extractRegular` returns satisfies the tree invariant. -/
theorem extractRegular_nodeOk (r : Reader) (n : NarNode) (r' : Reader)
    (h : extractRegular r = .ok (n, r')) : nodeOk n = true := by
  unfold extractRegular at h
  repeat' split at h
  all_goals first
    | cases h
    | exact extractRegularBody_nodeOk _ _ _ _ _ h

/-- Whatever `extractSymlink` returns satisfies the tree invariant. -/
theorem extractSymlink_nodeOk (r : Reader) (n : NarNode) (r' : Reader)
    (h : extractSymlink r = .ok (n, r')) : nodeOk n = true := by
  unfold extractSymlink at h
  repeat' split at h
  all_goals cases h
  all_goals rfl

/-- Joint invariant of the two mutually recursive extraction functions: every
successfully extracted node satisfies `nodeOk`, and every successfully
extracted entry list satisfies `chainOk` relative to the `prev` bound the
loop was entered with. -/
theorem extract_nodeOk_all (fuel : Nat) :
    (∀ r n r', extractNarObj fuel r = .ok (n, r') → nodeOk n = true) ∧
    (∀ prev r es r', extractDirectory fuel prev r = .ok (es, r') →
      chainOk prev es = true) := by
  induction fuel with
  | zero =>
    refine ⟨fun r n r' h => ?_, fun prev r es r' h => ?_⟩
    · simp [extractNarObj] at h
    · simp [extractDirectory] at h
  | succ fuel ih =>
    obtain ⟨ihObj, ihDir⟩ := ih
    refine ⟨fun r n r' h => ?_, fun prev r es r' h => ?_⟩
    · simp only [extractNarObj] at h
      split at h
      · cases h
      · split at h
        · cases h
        · split at h
          · cases h
          · split at h
            · cases h
            · next node r4 heq2 =>
              split at h
              · cases h
              · cases h
                split at heq2
                · exact extractRegular_nodeOk _ _ _ heq2
                · split at heq2
                  · exact extractSymlink_nodeOk _ _ _ heq2
                  · split at heq2
                    · split at heq2
                      · cases heq2
                      · next es r4' heq3 =>
                        cases heq2
                        simpa [nodeOk] using ihDir [] _ es _ heq3
                    · cases heq2
    · simp only [extractDirectory] at h
      split at h
      · split at h
        · cases h
          rfl
        · cases h
      · split at h
        · cases h
          rfl
        · split at h
          · cases h
          · split at h
            · cases h
            · split at h
              · cases h
              · split at h
                · cases h
                · next hvalid =>
                  split at h
                  · cases h
                  · next horder =>
                    split at h
                    · cases h
                    · split at h
                      · cases h
                      · next node r6 hnode =>
                        split at h
                        · cases h
                        · split at h
                          · cases h
                          · next rest r8 hrest =>
                            cases h
                            simp only [Bool.not_eq_false] at hvalid
                            rcases not_and_or.mp horder with hp | hc
                            · simp [chainOk, hvalid, not_not.mp hp,
                                ihObj _ _ _ hnode, ihDir _ _ _ _ hrest]
                            · simp [chainOk, hvalid, lt_of_not_ge hc,
                                ihObj _ _ _ hnode, ihDir _ _ _ _ hrest]

/-- When the next entry's name is not a valid path component, the directory
loop fails with the invalid-path-component error. -/
theorem extractDirectory_invalid_name (fuel : Nat) (prev : Bytes)
    (r r1 r2 r3 : Reader) (name : Bytes) (r4 : Reader)
    (h1 : readString r = .ok (blit "entry", r1))
    (h2 : expectString (blit "(") r1 = .ok r2)
    (h3 : expectString (blit "name") r2 = .ok r3)
    (h4 : readString r3 = .ok (name, r4))
    (h5 : isValidPathComponent name = false) :
    extractDirectory (fuel + 1) prev r = .error (.invalidPathComponent name) := by
  simp only [extractDirectory, h1, h2, h3, h4]
  rw [if_neg (by simp), if_pos h5]

/-- When the next entry's name is valid but not strictly greater than the
previous one, the directory loop fails with the unsorted-entries error. -/
theorem extractDirectory_unsorted (fuel : Nat) (prev : Bytes)
    (r r1 r2 r3 : Reader) (name : Bytes) (r4 : Reader)
    (h1 : readString r = .ok (blit "entry", r1))
    (h2 : expectString (blit "(") r1 = .ok r2)
    (h3 : expectString (blit "name") r2 = .ok r3)
    (h4 : readString r3 = .ok (name, r4))
    (h5 : isValidPathComponent name = true)
    (h6 : prev ≠ [])
    (h7 : bytesCompare prev name ≥ 0) :
    extractDirectory (fuel + 1) prev r = .error (.unsortedEntries prev name) := by
  simp only [extractDirectory, h1, h2, h3, h4]
  rw [if_neg (by simp), if_neg (by simp [h5]), if_pos ⟨h6, h7⟩]

/-- C6: confirmed.  (1) Every directory of a successfully extracted tree has
entry names that are valid path components in strictly increasing
byte-lexicographic order (`nodeOk`, i.e. `names[i] < names[i+1]` throughout);
(2) whenever the directory loop reads an entry name that is empty, `.`, `..`
or contains `/`, it fails with the invalid-path-component error; (3) whenever
it reads a valid name not strictly greater than its predecessor, it fails
with the unsorted-entries error. -/
theorem c6_directory_entry_validation :
    (∀ fuel r n r', extractNarObj fuel r = .ok (n, r') → nodeOk n = true) ∧
    (∀ (fuel : Nat) (prev : Bytes) (r r1 r2 r3 : Reader) (name : Bytes) (r4 : Reader),
      readString r = .ok (blit "entry", r1) →
      expectString (blit "(") r1 = .ok r2 →
      expectString (blit "name") r2 = .ok r3 →
      readString r3 = .ok (name, r4) →
      isValidPathComponent name = false →
      extractDirectory (fuel + 1) prev r = .error (.invalidPathComponent name)) ∧
    (∀ (fuel : Nat) (prev : Bytes) (r r1 r2 r3 : Reader) (name : Bytes) (r4 : Reader),
      readString r = .ok (blit "entry", r1) →
      expectString (blit "(") r1 = .ok r2 →
      expectString (blit "name") r2 = .ok r3 →
      readString r3 = .ok (name, r4) →
      isValidPathComponent name = true →
      prev ≠ [] →
      bytesCompare prev name ≥ 0 →
      extractDirectory (fuel + 1) prev r = .error (.unsortedEntries prev name)) :=
  ⟨fun fuel => (extract_nodeOk_all fuel).1,
   extractDirectory_invalid_name, extractDirectory_unsorted⟩

/-- Concrete NAR object: a directory with the single entry `a`, a symlink. -/
def dirBytes : Bytes :=
  encStr (blit "(") ++ encStr (blit "type") ++ encStr (blit "directory") ++
    encStr (blit "entry") ++ encStr (blit "(") ++ encStr (blit "name") ++
    encStr (blit "a") ++ encStr (blit "node") ++ encStr (blit "(") ++
    encStr (blit "type") ++ encStr (blit "symlink") ++ encStr (blit "target") ++
    encStr (blit "x") ++ encStr (blit ")") ++ encStr (blit ")") ++ encStr (blit ")")

/-- The tree extracted from `dirBytes`. -/
def nodeDirA : NarNode := .directory (.cons (blit "a") (.symlink (blit "x")) .nil)

/-- Concrete directory-entry stream whose name is the invalid `..`. -/
def entryBadBytes : Bytes :=
  encStr (blit "entry") ++ encStr (blit "(") ++ encStr (blit "name") ++ encStr (blit "..")

/-- Concrete directory-entry stream naming `a` (to follow previous name `b`). -/
def entryABytes : Bytes :=
  encStr (blit "entry") ++ encStr (blit "(") ++ encStr (blit "name") ++ encStr (blit "a")

set_option maxRecDepth 10000 in
/-- C6 witness: all three parts applied at concrete streams — a successful
directory extraction satisfying the invariant, a rejected `..` entry name,
and a rejected out-of-order entry name. -/
theorem c6_directory_entry_validation_witness :
    nodeOk nodeDirA = true ∧
    extractDirectory (2 + 1) [] (entryBadBytes, none) =
      .error (.invalidPathComponent (blit "..")) ∧
    extractDirectory (2 + 1) (blit "b") (entryABytes, none) =
      .error (.unsortedEntries (blit "b") (blit "a")) :=
  ⟨c6_directory_entry_validation.1 10 (dirBytes, none) nodeDirA ([], none) rfl,
   c6_directory_entry_validation.2.1 2 [] (entryBadBytes, none)
     (encStr (blit "(") ++ encStr (blit "name") ++ encStr (blit ".."), none)
     (encStr (blit "name") ++ encStr (blit ".."), none)
     (encStr (blit ".."), none) (blit "..") ([], none) rfl rfl rfl rfl rfl,
   c6_directory_entry_validation.2.2 2 (blit "b") (entryABytes, none)
     (encStr (blit "(") ++ encStr (blit "name") ++ encStr (blit "a"), none)
     (encStr (blit "name") ++ encStr (blit "a"), none)
     (encStr (blit "a"), none) (blit "a") ([], none) rfl rfl rfl rfl rfl
     (by decide) (by decide)⟩
